import Mathlib

/-!
# Verification of the EVE training-time validator

Shallow embedding of `tools/validate_training_time.py` and the aggregation
logic of `tools/validate_evemon_export.py`.

Python floats are modelled by `EveMon.PyFloat`: a rational value, the two
infinities, or NaN, with the IEEE-style arithmetic rules Python uses
(`inf - inf = nan`, comparisons with `nan` are false, division by exactly
zero raises and is modelled by `Option`).  Finite float arithmetic is
modelled exactly by `ℚ`; the one irrational constant `SQRT32 = math.sqrt(32)`
is embedded as the IEEE-754 double nearest to `sqrt 32`, which is the exact
value Python computes.
-/

namespace EveMon

/-- A Python float: a finite value (modelled exactly as a rational), one of
the two infinities, or NaN. -/
inductive PyFloat where
  | val : ℚ → PyFloat
  | inf : PyFloat
  | ninf : PyFloat
  | nan : PyFloat
deriving DecidableEq, Repr

/-- Negation of a Python float. -/
def pyNeg : PyFloat → PyFloat
  | .val q => .val (-q)
  | .inf => .ninf
  | .ninf => .inf
  | .nan => .nan

/-- Addition of Python floats (`inf + ninf = nan`, NaN is absorbing). -/
def pyAdd : PyFloat → PyFloat → PyFloat
  | .val a, .val b => .val (a + b)
  | .val _, .inf => .inf
  | .val _, .ninf => .ninf
  | .inf, .val _ => .inf
  | .inf, .inf => .inf
  | .inf, .ninf => .nan
  | .ninf, .val _ => .ninf
  | .ninf, .inf => .nan
  | .ninf, .ninf => .ninf
  | _, _ => .nan

/-- Subtraction of Python floats. -/
def pySub (a b : PyFloat) : PyFloat := pyAdd a (pyNeg b)

/-- Multiplication of a Python float by a machine integer
(`inf * 0 = nan`, signs of infinities follow the factor's sign). -/
def pyMulInt (x : PyFloat) (r : ℤ) : PyFloat :=
  match x with
  | .val q => .val (q * r)
  | .nan => .nan
  | .inf => if 0 < r then .inf else if r < 0 then .ninf else .nan
  | .ninf => if 0 < r then .ninf else if r < 0 then .inf else .nan

/-- Python `a > b` on floats: any comparison involving NaN is `false`. -/
def pyGt : PyFloat → PyFloat → Bool
  | .val a, .val b => decide (b < a)
  | .val _, .ninf => true
  | .inf, .val _ => true
  | .inf, .ninf => true
  | _, _ => false

/-- Python `a >= b` on floats: any comparison involving NaN is `false`. -/
def pyGe : PyFloat → PyFloat → Bool
  | .val a, .val b => decide (b ≤ a)
  | .val _, .ninf => true
  | .inf, .val _ => true
  | .inf, .inf => true
  | .inf, .ninf => true
  | .ninf, .ninf => true
  | _, _ => false

/-- Python float division.  Dividing by the float `0.0` raises
`ZeroDivisionError`, modelled by `none`; otherwise the usual extended
arithmetic applies (`inf / inf = nan`, finite / inf = 0). -/
def pyDivPF (a b : PyFloat) : Option PyFloat :=
  match a, b with
  | a, .val q =>
      if q = 0 then none
      else
        match a with
        | .val p => some (.val (p / q))
        | .inf => some (if 0 < q then .inf else .ninf)
        | .ninf => some (if 0 < q then .ninf else .inf)
        | .nan => some .nan
  | .nan, _ => some .nan
  | _, .nan => some .nan
  | .val _, .inf => some (.val 0)
  | .val _, .ninf => some (.val 0)
  | .inf, .inf => some .nan
  | .inf, .ninf => some .nan
  | .ninf, .inf => some .nan
  | .ninf, .ninf => some .nan

/-- A Python float is negative: either `-inf` or a finite value `< 0`
(NaN is not negative, matching Python comparisons). -/
def pfNeg (x : PyFloat) : Prop := x = .ninf ∨ ∃ q : ℚ, x = .val q ∧ q < 0

instance (x : PyFloat) : Decidable (pfNeg x) := by
  unfold pfNeg
  cases x with
  | val q =>
      by_cases h : q < 0
      · exact .isTrue (.inr ⟨q, rfl, h⟩)
      · exact .isFalse (by
          rintro (h' | ⟨p, hp, hplt⟩)
          · exact PyFloat.noConfusion h'
          · rw [PyFloat.val.injEq] at hp
            exact h (hp ▸ hplt))
  | inf => exact .isFalse (by rintro (h | ⟨p, hp, _⟩) <;> simp_all)
  | ninf => exact .isTrue (.inl rfl)
  | nan => exact .isFalse (by rintro (h | ⟨p, hp, _⟩) <;> simp_all)

/-- Python `int(x)` on a finite float: truncation toward zero. -/
def pyTrunc (q : ℚ) : ℤ := if q < 0 then -((-q).floor) else q.floor

/-- The IEEE-754 double value of `math.sqrt(32)`:
`6369051672525773 / 2^50` (exactly `4 * (the double nearest sqrt 2)`,
since scaling by a power of two is exact). -/
def SQRT32 : ℚ := 6369051672525773 / 1125899906842624

/-- The five character attributes (`attr_map` keys in the source; the
source's reflective string lookup is embedded as this enumeration). -/
inductive AttrName where
  | intelligence | perception | charisma | willpower | memory
deriving DecidableEq, Repr

/-- Clone state (`CloneState` enum in the source). -/
inductive CloneState where
  | omega | alpha
deriving DecidableEq, Repr

/-- `Attributes` dataclass: base attributes, implant bonuses, and the
shared booster bonus. -/
structure Attributes where
  intelligence : ℤ
  perception : ℤ
  charisma : ℤ
  willpower : ℤ
  memory : ℤ
  int_implant : ℤ
  per_implant : ℤ
  cha_implant : ℤ
  wil_implant : ℤ
  mem_implant : ℤ
  booster_bonus : ℤ
deriving DecidableEq, Repr

/-- The `effective_*` properties: base + implant + booster bonus. -/
def effectiveAttr (a : Attributes) : AttrName → ℤ
  | .intelligence => a.intelligence + a.int_implant + a.booster_bonus
  | .perception => a.perception + a.per_implant + a.booster_bonus
  | .charisma => a.charisma + a.cha_implant + a.booster_bonus
  | .willpower => a.willpower + a.wil_implant + a.booster_bonus
  | .memory => a.memory + a.mem_implant + a.booster_bonus

/-- `Skill` dataclass. -/
structure Skill where
  name : String
  rank : ℤ
  primary_attr : AttrName
  secondary_attr : AttrName
  current_level : ℤ
  current_sp : ℤ
deriving DecidableEq, Repr

/-- `Skill.sp_for_level`: `int(250 * rank * SQRT32 ** (level - 1))` for
`1 ≤ level ≤ 5`, else 0. -/
def sp_for_level (s : Skill) (level : ℤ) : ℤ :=
  if level < 1 ∨ 5 < level then 0
  else pyTrunc (250 * (s.rank : ℚ) * SQRT32 ^ (level - 1).toNat)

/-- `Skill.total_sp_at_level`: sum of `sp_for_level` over `1..level`
(empty for `level ≤ 0`, matching Python's `range(1, level + 1)`). -/
def total_sp_at_level (s : Skill) (level : ℤ) : ℤ :=
  (List.range level.toNat).foldl (fun acc i => acc + sp_for_level s (i + 1)) 0

/-- `Skill.sp_to_train`: SP needed to train from the current state to
`target_level`; 0 when the target does not exceed the current level. -/
def sp_to_train (s : Skill) (target_level : ℤ) : ℤ :=
  if target_level ≤ s.current_level then 0
  else max 0 (total_sp_at_level s target_level -
    (total_sp_at_level s s.current_level + s.current_sp))

/-- `calculate_sp_per_hour`: `primary*60 + secondary*30` (Omega) or
`primary*30 + secondary*15` (Alpha) on effective attribute values. -/
def calculate_sp_per_hour (a : Attributes) (s : Skill) (c : CloneState) : ℤ :=
  let primary := effectiveAttr a s.primary_attr
  let secondary := effectiveAttr a s.secondary_attr
  match c with
  | .omega => primary * 60 + secondary * 30
  | .alpha => primary * 30 + secondary * 15

/-- `calculate_training_time`: infinite sentinel when the rate is `≤ 0`,
else `sp / sp_per_hour`.  The `sp` argument is a float in the source (the
split branch passes a float remainder), so it is a `PyFloat` here. -/
def calculate_training_time (sp : PyFloat) (rate : ℤ) : PyFloat :=
  if rate ≤ 0 then .inf
  else
    match sp with
    | .val q => .val (q / (rate : ℚ))
    | x => x

/-- The per-item outputs of one iteration of `validate_plan`'s loop. -/
structure StepOut where
  timeBase : PyFloat
  timeActual : PyFloat
  timeSaved : PyFloat
  remAfter : PyFloat
deriving DecidableEq, Repr

/-- One iteration of the booster-aware loop body of `validate_plan`
(source lines 316–341), given the already-computed SP requirement and the
base/boosted SP-per-hour rates. -/
def stepBooster (bonus spNeeded rBase rBoost : ℤ) (rem : PyFloat) : StepOut :=
  let timeBase := calculate_training_time (.val (spNeeded : ℚ)) rBase
  if 0 < bonus ∧ pyGt rem (.val 0) = true then
    if pyGe (pyMulInt rem rBoost) (.val (spNeeded : ℚ)) = true then
      let timeActual := calculate_training_time (.val (spNeeded : ℚ)) rBoost
      ⟨timeBase, timeActual, pySub timeBase timeActual, pySub rem timeActual⟩
    else
      let spRemaining := pySub (.val (spNeeded : ℚ)) (pyMulInt rem rBoost)
      let timeActual := pyAdd rem (calculate_training_time spRemaining rBase)
      ⟨timeBase, timeActual, pySub timeBase timeActual, .val 0⟩
  else
    ⟨timeBase, timeBase, .val 0, rem⟩

/-- One row of `validate_plan`'s ledger, together with the value of
`booster_remaining` observed right after the item was processed. -/
structure PlanEntry where
  spNeeded : ℤ
  timeBase : PyFloat
  timeActual : PyFloat
  timeSaved : PyFloat
  remAfter : PyFloat
deriving DecidableEq, Repr

/-- Accumulated result of `validate_plan`'s loop. -/
structure PlanRun where
  entries : List PlanEntry
  skillsAfter : List Skill
  remFinal : PyFloat
  totalBase : PyFloat
  totalBoosted : PyFloat
deriving DecidableEq, Repr

/-- `boosted_attrs` construction (source lines 294–306): a copy of the
caller's attributes with `booster_bonus` replaced by the booster strength. -/
def boostAttrs (a : Attributes) (bonus : ℤ) : Attributes :=
  { a with booster_bonus := bonus }

/-- The loop of `validate_plan` (source lines 311–349): processes each
(skill, target level) pair in order, threading `booster_remaining` and the
running totals, and mutating each skill to `(target_level, 0)`. -/
def planAux (attrs battrs : Attributes) (bonus : ℤ) (clone : CloneState) :
    List (Skill × ℤ) → PyFloat → PyFloat → PyFloat → PlanRun
  | [], rem, tB, tA => ⟨[], [], rem, tB, tA⟩
  | (sk, tgt) :: rest, rem, tB, tA =>
    let spNeeded := sp_to_train sk tgt
    let st := stepBooster bonus spNeeded (calculate_sp_per_hour attrs sk clone)
        (calculate_sp_per_hour battrs sk clone) rem
    let tail := planAux attrs battrs bonus clone rest st.remAfter
        (pyAdd tB st.timeBase) (pyAdd tA st.timeActual)
    ⟨⟨spNeeded, st.timeBase, st.timeActual, st.timeSaved, st.remAfter⟩ :: tail.entries,
     { sk with current_level := tgt, current_sp := 0 } :: tail.skillsAfter,
     tail.remFinal, tail.totalBase, tail.totalBoosted⟩

/-- The full output of `validate_plan`: the ledger, the mutated skills,
both totals, and the reported total time saved
(`total_time_base - total_time_boosted`, source line 353). -/
structure PlanResult where
  entries : List PlanEntry
  skillsAfter : List Skill
  totalBase : PyFloat
  totalBoosted : PyFloat
  totalSaved : PyFloat
  remFinal : PyFloat
deriving DecidableEq, Repr

/-- `validate_plan` (source lines 278–353). -/
def validate_plan (attrs : Attributes) (skills : List (Skill × ℤ)) (bonus : ℤ)
    (hours : ℚ) (clone : CloneState) : PlanResult :=
  let run := planAux attrs (boostAttrs attrs bonus) bonus clone skills
      (.val hours) (.val 0) (.val 0)
  ⟨run.entries, run.skillsAfter, run.totalBase, run.totalBoosted,
   pySub run.totalBase run.totalBoosted, run.remFinal⟩

/-- The numbers printed by `validate_single_skill`: the SP requirement, the
base-rate time, the training time actually reported (split total or full
boosted time), and — when a booster bonus is given — the reported
"time saved (full duration)". -/
structure SingleOut where
  spNeeded : ℤ
  timeBase : PyFloat
  timeActual : PyFloat
  timeSaved : Option PyFloat
deriving DecidableEq, Repr

/-- `validate_single_skill` (source lines 184–275).  `none` models a
`ZeroDivisionError`: the split branch divides the SP remainder by the raw
base rate (line 256), and the time-saved report divides by the base
training time (line 275); either aborts the call when the divisor is the
float zero. -/
def validate_single_skill (attrs : Attributes) (sk : Skill) (tgt bonus : ℤ)
    (hours : ℚ) (clone : CloneState) : Option SingleOut :=
  let spNeeded := sp_to_train sk tgt
  let rBase := calculate_sp_per_hour attrs sk clone
  let timeBase := calculate_training_time (.val (spNeeded : ℚ)) rBase
  if 0 < bonus then
    let battrs := boostAttrs attrs bonus
    let rBoost := calculate_sp_per_hour battrs sk clone
    let actualQ : Option PyFloat :=
      if 0 < hours ∧ hours * (rBoost : ℚ) < (spNeeded : ℚ) then
        match pyDivPF (.val ((spNeeded : ℚ) - hours * (rBoost : ℚ))) (.val (rBase : ℚ)) with
        | none => none
        | some t => some (pyAdd (.val hours) t)
      else some (calculate_training_time (.val (spNeeded : ℚ)) rBoost)
    match actualQ with
    | none => none
    | some act =>
      let timeBoostedFull := calculate_training_time (.val (spNeeded : ℚ)) rBoost
      let ts := pySub timeBase timeBoostedFull
      match pyDivPF ts timeBase with
      | none => none
      | some _ => some ⟨spNeeded, timeBase, act, some ts⟩
  else some ⟨spNeeded, timeBase, timeBase, none⟩

/-- One parsed row of the EVEMon CSV export
(`SkillEntry` in `validate_evemon_export.py`; only the fields the summary
aggregation reads are carried — the remaining fields do not influence the
totals). -/
structure SkillEntry where
  name : String
  booster_bonus : ℤ
  training_time_hours : ℚ
  old_training_time_hours : ℚ
  time_saved_hours : ℚ
deriving DecidableEq, Repr

/-- The summary accumulation of `validate_evemon_export.main` (source
lines 195–225): running totals of new time, old time, and time saved —
the last restricted to entries with strictly positive `time_saved_hours`.
Returns `(total_time, total_old_time, total_time_saved)`. -/
def exportTotals (entries : List SkillEntry) : ℚ × ℚ × ℚ :=
  entries.foldl
    (fun acc e =>
      (acc.1 + e.training_time_hours,
       acc.2.1 + e.old_training_time_hours,
       if 0 < e.time_saved_hours then acc.2.2 + e.time_saved_hours else acc.2.2))
    (0, 0, 0)

/-- The "Percentage saved" line of `validate_evemon_export.main` (source
lines 230–235): printed only when the baseline total is strictly
positive. -/
def exportPercentSaved (entries : List SkillEntry) : Option ℚ :=
  let t := exportTotals entries
  if 0 < t.2.1 then some (t.2.2 / t.2.1 * 100) else none

/-- One step of a booster-depletion trace: both values are finite, the
second is nonnegative and no larger than the first. -/
def remDecreasing (x y : PyFloat) : Prop :=
  ∃ u v : ℚ, x = .val u ∧ y = .val v ∧ 0 ≤ v ∧ v ≤ u

/-- One step of a zero-absorbing trace: a zero value is followed only by
zero values. -/
def remZeroStays (x y : PyFloat) : Prop := x = .val 0 → y = .val 0

/-! ### Concrete inputs used by the counterexample and witness theorems -/

/-- Attributes with degenerate (negative) perception/willpower, no implants,
no pre-existing booster bonus. -/
def attrsNeg : Attributes := ⟨0, -10, 0, -10, 0, 0, 0, 0, 0, 0, 0⟩

/-- A rank-1 perception/willpower skill at level 0 with no partial SP. -/
def skillL0 : Skill := ⟨"Gunnery", 1, .perception, .willpower, 0, 0⟩

/-- Attributes making the boosted Omega rate exactly zero under a `+1`
booster: effective perception `-2 + 1 = -1`, willpower `1 + 1 = 2`, so the
boosted rate is `-60 + 60 = 0`. -/
def attrsZeroBoost : Attributes := ⟨0, -2, 0, 1, 0, 0, 0, 0, 0, 0, 0⟩

/-- A rank-1 perception/willpower skill already at level 1. -/
def skillL1 : Skill := ⟨"X", 1, .perception, .willpower, 1, 0⟩

/-- All-zero attributes: every production rate is 0. -/
def attrsZero : Attributes := ⟨0, 0, 0, 0, 0, 0, 0, 0, 0, 0, 0⟩

/-- Attributes with perception 10 / willpower 10 (base Omega rate 900). -/
def attrsTen : Attributes := ⟨0, 10, 0, 10, 0, 0, 0, 0, 0, 0, 0⟩

/-- Standard attributes (all 17, no implants). -/
def attrsStd : Attributes := ⟨17, 17, 17, 17, 17, 0, 0, 0, 0, 0, 0⟩

/-- An export-CSV row whose recorded per-entry time saved is negative. -/
def entryNegSaved : SkillEntry := ⟨"e", 0, 5, 4, -1⟩

/-! ## Helper lemmas -/

theorem rat_floor_intCast (n : ℤ) : Rat.floor (n : ℚ) = n := by
  have h : Rat.floor (n : ℚ) = ⌊(n : ℚ)⌋ := rfl
  rw [h, Int.floor_intCast]

theorem pyTrunc_intCast (n : ℤ) : pyTrunc (n : ℚ) = n := by
  unfold pyTrunc
  by_cases h : (n : ℚ) < 0
  · rw [if_pos h, ← Int.cast_neg, rat_floor_intCast, neg_neg]
  · rw [if_neg h, rat_floor_intCast]

/-- `sp_to_train` is never negative (the source floors it at 0). -/
theorem sp_to_train_nonneg (s : Skill) (t : ℤ) : 0 ≤ sp_to_train s t := by
  unfold sp_to_train
  split
  · exact le_refl 0
  · exact le_max_left 0 _

/-- When the booster branch is not taken, the item trains wholly at the
base rate and `booster_remaining` is untouched. -/
theorem stepBooster_inactive (bonus spNeeded rBase rBoost : ℤ) (rem : PyFloat)
    (h : ¬(0 < bonus ∧ pyGt rem (.val 0) = true)) :
    stepBooster bonus spNeeded rBase rBoost rem =
      ⟨calculate_training_time (.val (spNeeded : ℚ)) rBase,
       calculate_training_time (.val (spNeeded : ℚ)) rBase, .val 0, rem⟩ := by
  unfold stepBooster
  rw [if_neg h]

/-- The full-coverage branch of the booster logic. -/
theorem stepBooster_full (bonus spNeeded rBase rBoost : ℤ) (q : ℚ)
    (hb : 0 < bonus) (hq : 0 < q) (hge : (spNeeded : ℚ) ≤ q * (rBoost : ℚ)) :
    stepBooster bonus spNeeded rBase rBoost (.val q) =
      ⟨calculate_training_time (.val (spNeeded : ℚ)) rBase,
       calculate_training_time (.val (spNeeded : ℚ)) rBoost,
       pySub (calculate_training_time (.val (spNeeded : ℚ)) rBase)
         (calculate_training_time (.val (spNeeded : ℚ)) rBoost),
       pySub (.val q) (calculate_training_time (.val (spNeeded : ℚ)) rBoost)⟩ := by
  unfold stepBooster
  rw [if_pos ⟨hb, by simp [pyGt, hq]⟩, if_pos (by simp [pyMulInt, pyGe, hge])]

/-- The split branch of the booster logic. -/
theorem stepBooster_split (bonus spNeeded rBase rBoost : ℤ) (q : ℚ)
    (hb : 0 < bonus) (hq : 0 < q) (hlt : q * (rBoost : ℚ) < (spNeeded : ℚ)) :
    stepBooster bonus spNeeded rBase rBoost (.val q) =
      ⟨calculate_training_time (.val (spNeeded : ℚ)) rBase,
       pyAdd (.val q)
         (calculate_training_time (.val ((spNeeded : ℚ) - q * (rBoost : ℚ))) rBase),
       pySub (calculate_training_time (.val (spNeeded : ℚ)) rBase)
         (pyAdd (.val q)
           (calculate_training_time (.val ((spNeeded : ℚ) - q * (rBoost : ℚ))) rBase)),
       .val 0⟩ := by
  unfold stepBooster
  rw [if_pos ⟨hb, by simp [pyGt, hq]⟩, if_neg (by simp [pyMulInt, pyGe]; linarith)]
  have hsub : pySub (.val (spNeeded : ℚ)) (pyMulInt (.val q) rBoost) =
      PyFloat.val ((spNeeded : ℚ) - q * (rBoost : ℚ)) := by
    simp [pySub, pyAdd, pyNeg, pyMulInt, sub_eq_add_neg]
  rw [hsub]

/-- After any step from a finite nonnegative `booster_remaining`, with a
positive boosted rate and a nonnegative SP requirement, the remaining
booster time is again finite, nonnegative, and no larger. -/
theorem step_rem_val (bonus spNeeded rBase rBoost : ℤ) (q : ℚ)
    (hsp : 0 ≤ spNeeded) (hBo : 0 < rBoost) (hq : 0 ≤ q) :
    ∃ v : ℚ, (stepBooster bonus spNeeded rBase rBoost (.val q)).remAfter = .val v ∧
      0 ≤ v ∧ v ≤ q := by
  have hBo' : (0 : ℚ) < (rBoost : ℚ) := by exact_mod_cast hBo
  have hsp' : (0 : ℚ) ≤ (spNeeded : ℚ) := by exact_mod_cast hsp
  by_cases hact : 0 < bonus ∧ pyGt (PyFloat.val q) (.val 0) = true
  · have hqpos : 0 < q := by
      have := hact.2
      simpa [pyGt] using this
    by_cases hge : (spNeeded : ℚ) ≤ q * (rBoost : ℚ)
    · rw [stepBooster_full bonus spNeeded rBase rBoost q hact.1 hqpos hge]
      refine ⟨q - (spNeeded : ℚ) / (rBoost : ℚ), ?_, ?_, ?_⟩
      · simp [calculate_training_time, not_le.mpr hBo, pySub, pyAdd, pyNeg,
          sub_eq_add_neg]
      · have : (spNeeded : ℚ) / (rBoost : ℚ) ≤ q := by
          rw [div_le_iff₀ hBo']; linarith
        linarith
      · have : 0 ≤ (spNeeded : ℚ) / (rBoost : ℚ) := div_nonneg hsp' hBo'.le
        linarith
    · rw [stepBooster_split bonus spNeeded rBase rBoost q hact.1 hqpos
        (by linarith [not_le.mp hge])]
      exact ⟨0, rfl, le_refl 0, hq⟩
  · rw [stepBooster_inactive bonus spNeeded rBase rBoost (.val q) hact]
    exact ⟨q, rfl, hq, le_refl q⟩

/-- With equal-numerator positive rates, the base-rate duration dominates
the boosted-rate duration. -/
theorem saved_core_nonneg (spNeeded rBase rBoost : ℤ) (hsp : 0 ≤ spNeeded)
    (hB : 0 < rBase) (hr : rBase ≤ rBoost) :
    0 ≤ (spNeeded : ℚ) / (rBase : ℚ) - (spNeeded : ℚ) / (rBoost : ℚ) := by
  have hB' : (0 : ℚ) < (rBase : ℚ) := by exact_mod_cast hB
  have hr' : (rBase : ℚ) ≤ (rBoost : ℚ) := by exact_mod_cast hr
  have hsp' : (0 : ℚ) ≤ (spNeeded : ℚ) := by exact_mod_cast hsp
  have := div_le_div_of_nonneg_left hsp' hB' hr'
  linarith

/-- The per-entry `time_saved` of a step is never negative: it is either a
nonnegative finite value, `+inf`, or NaN. -/
theorem step_saved_not_neg (bonus spNeeded rBase rBoost : ℤ) (rem : PyFloat)
    (hsp : 0 ≤ spNeeded) (hr : rBase ≤ rBoost) :
    ¬ pfNeg (stepBooster bonus spNeeded rBase rBoost rem).timeSaved := by
  have hsp' : (0 : ℚ) ≤ (spNeeded : ℚ) := by exact_mod_cast hsp
  have hr' : (rBase : ℚ) ≤ (rBoost : ℚ) := by exact_mod_cast hr
  by_cases hact : 0 < bonus ∧ pyGt rem (.val 0) = true
  · cases rem with
    | val q =>
        have hqpos : 0 < q := by
          have := hact.2
          simpa [pyGt] using this
        by_cases hge : (spNeeded : ℚ) ≤ q * (rBoost : ℚ)
        · rw [stepBooster_full bonus spNeeded rBase rBoost q hact.1 hqpos hge]
          by_cases hBo : rBoost ≤ 0
          · have hB : rBase ≤ 0 := le_trans hr hBo
            simp [calculate_training_time, hBo, hB, pySub, pyAdd, pyNeg, pfNeg]
          · push_neg at hBo
            by_cases hB : rBase ≤ 0
            · simp [calculate_training_time, hB, not_le.mpr hBo, pySub, pyAdd,
                pyNeg, pfNeg]
            · push_neg at hB
              have hkey := saved_core_nonneg spNeeded rBase rBoost hsp hB hr
              simp only [calculate_training_time, if_neg (not_le.mpr hBo),
                if_neg (not_le.mpr hB), pySub, pyAdd, pyNeg, pfNeg]
              rintro (h | ⟨p, hp, hplt⟩)
              · exact PyFloat.noConfusion h
              · rw [PyFloat.val.injEq] at hp
                subst hp
                linarith
        · push_neg at hge
          rw [stepBooster_split bonus spNeeded rBase rBoost q hact.1 hqpos hge]
          by_cases hB : rBase ≤ 0
          · simp [calculate_training_time, hB, pySub, pyAdd, pyNeg, pfNeg]
          · push_neg at hB
            have hB' : (0 : ℚ) < (rBase : ℚ) := by exact_mod_cast hB
            simp only [calculate_training_time, if_neg (not_le.mpr hB), pySub,
              pyAdd, pyNeg, pfNeg]
            rintro (h | ⟨p, hp, hplt⟩)
            · exact PyFloat.noConfusion h
            · rw [PyFloat.val.injEq] at hp
              have hkey : 0 ≤ (spNeeded : ℚ) / (rBase : ℚ) +
                  -(q + ((spNeeded : ℚ) - q * (rBoost : ℚ)) / (rBase : ℚ)) := by
                have hfrac : (spNeeded : ℚ) / (rBase : ℚ) +
                    -(q + ((spNeeded : ℚ) - q * (rBoost : ℚ)) / (rBase : ℚ)) =
                    q * ((rBoost : ℚ) - (rBase : ℚ)) / (rBase : ℚ) := by
                  field_simp
                  ring
                rw [hfrac]
                exact div_nonneg (mul_nonneg hqpos.le (by linarith)) hB'.le
              subst hp
              linarith
    | inf =>
        rcases lt_trichotomy rBoost 0 with hBo | hBo | hBo
        · have hB : rBase ≤ 0 := by omega
          unfold stepBooster
          rw [if_pos hact]
          have hmul : pyMulInt PyFloat.inf rBoost = .ninf := by
            simp [pyMulInt, hBo, not_lt.mpr hBo.le]
          rw [hmul]
          simp [pyGe, calculate_training_time, hB, pySub, pyAdd, pyNeg, pfNeg]
        · have hB : rBase ≤ 0 := by omega
          unfold stepBooster
          rw [if_pos hact]
          have hmul : pyMulInt PyFloat.inf rBoost = .nan := by
            simp [pyMulInt, hBo]
          rw [hmul]
          simp [pyGe, calculate_training_time, hB, pySub, pyAdd, pyNeg, pfNeg]
        · unfold stepBooster
          rw [if_pos hact]
          have hmul : pyMulInt PyFloat.inf rBoost = .inf := by
            simp [pyMulInt, hBo]
          rw [hmul]
          rw [show pyGe PyFloat.inf (.val (spNeeded : ℚ)) = true from rfl]
          by_cases hB : rBase ≤ 0
          · simp [calculate_training_time, hB, not_le.mpr hBo, pySub, pyAdd,
              pyNeg, pfNeg]
          · push_neg at hB
            have hkey := saved_core_nonneg spNeeded rBase rBoost hsp hB hr
            simp only [calculate_training_time, if_neg (not_le.mpr hBo),
              if_neg (not_le.mpr hB), if_true, pySub, pyAdd, pyNeg, pfNeg]
            rintro (h | ⟨p, hp, hplt⟩)
            · exact PyFloat.noConfusion h
            · rw [PyFloat.val.injEq] at hp
              subst hp
              linarith
    | ninf => simp [pyGt] at hact
    | nan => simp [pyGt] at hact
  · rw [stepBooster_inactive bonus spNeeded rBase rBoost rem hact]
    simp [pfNeg]

/-- Monotonicity of the production rate in the booster bonus: replacing a
zero `booster_bonus` by a nonnegative one never lowers the rate. -/
theorem effectiveAttr_boost (a : Attributes) (bonus : ℤ) (n : AttrName) :
    effectiveAttr (boostAttrs a bonus) n = effectiveAttr a n - a.booster_bonus + bonus := by
  cases n <;> simp [effectiveAttr, boostAttrs]

theorem rate_mono (a : Attributes) (bonus : ℤ) (sk : Skill) (c : CloneState)
    (h0 : a.booster_bonus = 0) (hb : 0 ≤ bonus) :
    calculate_sp_per_hour a sk c ≤ calculate_sp_per_hour (boostAttrs a bonus) sk c := by
  unfold calculate_sp_per_hour
  rw [effectiveAttr_boost, effectiveAttr_boost, h0]
  cases c <;> dsimp only <;> omega

/-- Every skill in the output list has been set to its target level with
zero partial SP. -/
theorem planAux_skillsAfter (attrs battrs : Attributes) (bonus : ℤ) (clone : CloneState)
    (skills : List (Skill × ℤ)) :
    ∀ (rem tB tA : PyFloat),
      (planAux attrs battrs bonus clone skills rem tB tA).skillsAfter =
        skills.map (fun p => { p.1 with current_level := p.2, current_sp := 0 }) := by
  induction skills with
  | nil => intro rem tB tA; simp [planAux]
  | cons hd rest ih =>
      intro rem tB tA
      obtain ⟨sk, tgt⟩ := hd
      simp only [planAux, List.map_cons]
      rw [ih]

/-- The accumulated totals equal left folds of the per-entry columns over
the produced ledger. -/
theorem planAux_totals (attrs battrs : Attributes) (bonus : ℤ) (clone : CloneState)
    (skills : List (Skill × ℤ)) :
    ∀ (rem tB tA : PyFloat),
      (planAux attrs battrs bonus clone skills rem tB tA).totalBase =
        (planAux attrs battrs bonus clone skills rem tB tA).entries.foldl
          (fun a e => pyAdd a e.timeBase) tB ∧
      (planAux attrs battrs bonus clone skills rem tB tA).totalBoosted =
        (planAux attrs battrs bonus clone skills rem tB tA).entries.foldl
          (fun a e => pyAdd a e.timeActual) tA := by
  induction skills with
  | nil => intro rem tB tA; simp [planAux]
  | cons hd rest ih =>
      intro rem tB tA
      obtain ⟨sk, tgt⟩ := hd
      simp only [planAux, List.foldl_cons]
      exact ih _ _ _

/-- Once `booster_remaining` is exactly 0, every later item leaves it 0. -/
theorem planAux_rem_zero (attrs battrs : Attributes) (bonus : ℤ) (clone : CloneState)
    (skills : List (Skill × ℤ)) :
    ∀ (tB tA : PyFloat),
      ∀ e ∈ (planAux attrs battrs bonus clone skills (.val 0) tB tA).entries,
        e.remAfter = .val 0 := by
  induction skills with
  | nil => intro tB tA e he; simp [planAux] at he
  | cons hd rest ih =>
      intro tB tA e he
      obtain ⟨sk, tgt⟩ := hd
      have hstep : stepBooster bonus (sp_to_train sk tgt)
          (calculate_sp_per_hour attrs sk clone)
          (calculate_sp_per_hour battrs sk clone) (.val 0) =
          ⟨calculate_training_time (.val ((sp_to_train sk tgt : ℤ) : ℚ))
            (calculate_sp_per_hour attrs sk clone),
           calculate_training_time (.val ((sp_to_train sk tgt : ℤ) : ℚ))
            (calculate_sp_per_hour attrs sk clone), .val 0, .val 0⟩ :=
        stepBooster_inactive _ _ _ _ _ (by simp [pyGt])
      simp only [planAux, hstep, List.mem_cons] at he
      rcases he with he | he
      · rw [he]
      · exact ih _ _ e he

/-- With booster strength 0 the booster branch is never entered: every
entry trains at the base rate, saves nothing, and `booster_remaining` is
left at its incoming value throughout. -/
theorem planAux_zero_bonus (attrs battrs : Attributes) (clone : CloneState)
    (skills : List (Skill × ℤ)) :
    ∀ (rem tB tA : PyFloat),
      (planAux attrs battrs 0 clone skills rem tB tA).remFinal = rem ∧
      ∀ e ∈ (planAux attrs battrs 0 clone skills rem tB tA).entries,
        e.timeActual = e.timeBase ∧ e.timeSaved = .val 0 ∧ e.remAfter = rem := by
  induction skills with
  | nil =>
      intro rem tB tA
      refine ⟨rfl, ?_⟩
      intro e he
      simp [planAux] at he
  | cons hd rest ih =>
      intro rem tB tA
      obtain ⟨sk, tgt⟩ := hd
      have hstep : stepBooster 0 (sp_to_train sk tgt)
          (calculate_sp_per_hour attrs sk clone)
          (calculate_sp_per_hour battrs sk clone) rem =
          ⟨calculate_training_time (.val ((sp_to_train sk tgt : ℤ) : ℚ))
            (calculate_sp_per_hour attrs sk clone),
           calculate_training_time (.val ((sp_to_train sk tgt : ℤ) : ℚ))
            (calculate_sp_per_hour attrs sk clone), .val 0, rem⟩ :=
        stepBooster_inactive _ _ _ _ _ (by simp)
      constructor
      · simp only [planAux, hstep]
        exact (ih rem _ _).1
      · intro e he
        simp only [planAux, hstep, List.mem_cons] at he
        rcases he with he | he
        · rw [he]
          exact ⟨rfl, rfl, rfl⟩
        · exact (ih rem _ _).2 e he

/-- The booster-depletion trace: starting from a nonnegative finite
duration and with all boosted rates positive, the observed sequence of
`booster_remaining` values is finite, nonnegative and non-increasing. -/
theorem planAux_rem_chain (attrs battrs : Attributes) (bonus : ℤ) (clone : CloneState) :
    ∀ (skills : List (Skill × ℤ)) (q0 : ℚ) (tB tA : PyFloat), 0 ≤ q0 →
      (∀ p ∈ skills, 0 < calculate_sp_per_hour battrs p.1 clone) →
      List.Chain' remDecreasing
        (PyFloat.val q0 ::
          (planAux attrs battrs bonus clone skills (.val q0) tB tA).entries.map
            PlanEntry.remAfter) := by
  intro skills
  induction skills with
  | nil =>
      intro q0 tB tA hq0 hpos
      simp [planAux]
  | cons hd rest ih =>
      intro q0 tB tA hq0 hpos
      obtain ⟨sk, tgt⟩ := hd
      obtain ⟨v, hv, hv0, hvq⟩ := step_rem_val bonus (sp_to_train sk tgt)
        (calculate_sp_per_hour attrs sk clone)
        (calculate_sp_per_hour battrs sk clone) q0
        (sp_to_train_nonneg sk tgt) (hpos (sk, tgt) (List.mem_cons_self _ _)) hq0
      simp only [planAux, List.map_cons, hv]
      rw [List.chain'_cons]
      refine ⟨⟨q0, v, rfl, rfl, hv0, hvq⟩, ?_⟩
      have := ih v (pyAdd tB (stepBooster bonus (sp_to_train sk tgt)
        (calculate_sp_per_hour attrs sk clone)
        (calculate_sp_per_hour battrs sk clone) (.val q0)).timeBase)
        (pyAdd tA (stepBooster bonus (sp_to_train sk tgt)
        (calculate_sp_per_hour attrs sk clone)
        (calculate_sp_per_hour battrs sk clone) (.val q0)).timeActual)
        hv0 (fun p hp => hpos p (List.mem_cons_of_mem _ hp))
      exact this

/-- Every ledger entry's `time_saved` is not negative, whenever the boosted
rate dominates the base rate for every skill. -/
theorem planAux_saved_not_neg (attrs battrs : Attributes) (bonus : ℤ) (clone : CloneState)
    (hrate : ∀ sk : Skill,
      calculate_sp_per_hour attrs sk clone ≤ calculate_sp_per_hour battrs sk clone) :
    ∀ (skills : List (Skill × ℤ)) (rem tB tA : PyFloat),
      ∀ e ∈ (planAux attrs battrs bonus clone skills rem tB tA).entries,
        ¬ pfNeg e.timeSaved := by
  intro skills
  induction skills with
  | nil => intro rem tB tA e he; simp [planAux] at he
  | cons hd rest ih =>
      intro rem tB tA e he
      obtain ⟨sk, tgt⟩ := hd
      simp only [planAux, List.mem_cons] at he
      rcases he with he | he
      · have hns := step_saved_not_neg bonus (sp_to_train sk tgt)
          (calculate_sp_per_hour attrs sk clone)
          (calculate_sp_per_hour battrs sk clone) rem
          (sp_to_train_nonneg sk tgt) (hrate sk)
        rw [he]
        exact hns
      · exact ih _ _ _ e he

theorem rate_std : calculate_sp_per_hour attrsStd skillL1 .omega = 1530 := by
  simp [calculate_sp_per_hour, effectiveAttr, attrsStd, skillL1]

theorem rate_std_boost : calculate_sp_per_hour (boostAttrs attrsStd 10) skillL1 .omega = 2430 := by
  simp [calculate_sp_per_hour, effectiveAttr, boostAttrs, attrsStd, skillL1]

theorem sp_skillL1 : sp_to_train skillL1 1 = 0 := by
  simp [sp_to_train, skillL1]

theorem sp_skillL0 : sp_to_train skillL0 1 = 250 := by
  have h : ((250 : ℚ)) = ((250 : ℤ) : ℚ) := by norm_num
  simp [sp_to_train, skillL0, total_sp_at_level, sp_for_level, List.range_succ]
  rw [h, pyTrunc_intCast]
  omega

/-- The standard one-item no-booster run, evaluated. -/
theorem runA_entries :
    (validate_plan attrsStd [(skillL1, 1)] 0 24 .omega).entries =
      [⟨0, .val 0, .val 0, .val 0, .val 24⟩] := by
  simp only [validate_plan, planAux, rate_std, sp_skillL1]
  norm_num [stepBooster, calculate_training_time, pyGt]

/-- The standard one-item boosted run (zero quantity), evaluated. -/
theorem runB_entries :
    (validate_plan attrsStd [(skillL1, 1)] 10 24 .omega).entries =
      [⟨0, .val 0, .val 0, .val 0, .val 24⟩] := by
  simp only [validate_plan, planAux, rate_std, rate_std_boost, sp_skillL1]
  norm_num [stepBooster, calculate_training_time, pyGt, pyGe, pyMulInt, pySub, pyAdd, pyNeg]

/-- **C9** — After the plan scheduler processes an item, that work item's
`current_level` equals the item's target level and its partial SP is 0,
unconditionally: the assignment happens even when the target is strictly
below the current level, so a simulation can lower a skill's recorded
level. -/
theorem plan_sets_skill_to_target (attrs : Attributes) (skills : List (Skill × ℤ))
    (bonus : ℤ) (hours : ℚ) (clone : CloneState) :
    (validate_plan attrs skills bonus hours clone).skillsAfter =
      skills.map (fun p => { p.1 with current_level := p.2, current_sp := 0 }) := by
  unfold validate_plan
  exact planAux_skillsAfter attrs (boostAttrs attrs bonus) bonus clone skills _ _ _

/-- **C10** — With booster strength 0 the booster branch is never entered,
whatever booster duration is supplied: `booster_remaining` keeps its
initial value throughout the run, every entry's actual duration equals its
base duration, and every entry saves zero time. -/
theorem zero_strength_frame (attrs : Attributes) (skills : List (Skill × ℤ))
    (hours : ℚ) (clone : CloneState) :
    (validate_plan attrs skills 0 hours clone).remFinal = .val hours ∧
    ∀ e ∈ (validate_plan attrs skills 0 hours clone).entries,
      e.timeActual = e.timeBase ∧ e.timeSaved = .val 0 ∧ e.remAfter = .val hours := by
  unfold validate_plan
  exact planAux_zero_bonus attrs (boostAttrs attrs 0) clone skills _ _ _

/-- Witness for `zero_strength_frame`: a concrete strength-0 run with a
24-hour booster duration leaves the remaining hours at 24 and the single
entry untouched by the booster. -/
theorem zero_strength_frame_witness :
    (validate_plan attrsStd [(skillL1, 1)] 0 24 .omega).remFinal = .val 24 ∧
    PlanEntry.mk 0 (.val 0) (.val 0) (.val 0) (.val 24) ∈
      (validate_plan attrsStd [(skillL1, 1)] 0 24 .omega).entries ∧
    (PlanEntry.mk 0 (.val 0) (.val 0) (.val 0) (.val 24)).timeActual =
      (PlanEntry.mk 0 (.val 0) (.val 0) (.val 0) (.val 24)).timeBase ∧
    (PlanEntry.mk 0 (.val 0) (.val 0) (.val 0) (.val 24)).timeSaved = .val 0 ∧
    (PlanEntry.mk 0 (.val 0) (.val 0) (.val 0) (.val 24)).remAfter = .val 24 := by
  have hmem : PlanEntry.mk 0 (.val 0) (.val 0) (.val 0) (.val 24) ∈
      (validate_plan attrsStd [(skillL1, 1)] 0 24 .omega).entries := by
    rw [runA_entries]
    exact List.mem_singleton_self _
  have h := zero_strength_frame attrsStd [(skillL1, 1)] 24 .omega
  exact ⟨h.1, hmem, h.2 _ hmem⟩

/-- **C1 (amended)** — When the booster branch is active (strength strictly
positive and remaining hours strictly positive) and the coverable quantity
`rem * boosted_rate` is strictly below the item's quantity, the scheduler
splits the item: the booster contributes exactly its remaining hours, the
remainder `quantity - rem * boosted_rate` trains at the base rate, and the
remaining booster time is 0 for this and hence all subsequent items. -/
theorem booster_split_case :
    (∀ (bonus spNeeded rBase rBoost : ℤ) (q : ℚ), 0 < bonus → 0 < q →
      q * (rBoost : ℚ) < (spNeeded : ℚ) →
      stepBooster bonus spNeeded rBase rBoost (.val q) =
        ⟨calculate_training_time (.val (spNeeded : ℚ)) rBase,
         pyAdd (.val q)
           (calculate_training_time (.val ((spNeeded : ℚ) - q * (rBoost : ℚ))) rBase),
         pySub (calculate_training_time (.val (spNeeded : ℚ)) rBase)
           (pyAdd (.val q)
             (calculate_training_time (.val ((spNeeded : ℚ) - q * (rBoost : ℚ))) rBase)),
         .val 0⟩) ∧
    (∀ (attrs battrs : Attributes) (bonus : ℤ) (clone : CloneState)
        (skills : List (Skill × ℤ)) (tB tA : PyFloat),
      ∀ e ∈ (planAux attrs battrs bonus clone skills (.val 0) tB tA).entries,
        e.remAfter = .val 0) := by
  constructor
  · intro bonus spNeeded rBase rBoost q hb hq hlt
    exact stepBooster_split bonus spNeeded rBase rBoost q hb hq hlt
  · intro attrs battrs bonus clone skills tB tA
    exact planAux_rem_zero attrs battrs bonus clone skills tB tA

/-- Witness for `booster_split_case`, the spec's Scenario B: quantity 10000,
base rate 1000/h, boosted rate 2000/h, 3h of booster remaining — the split
yields a 7h actual duration, 3h saved, and zero booster thereafter. -/
theorem booster_split_scenario :
    stepBooster 1 10000 1000 2000 (.val 3) =
      ⟨.val 10, .val 7, .val 3, .val 0⟩ := by
  have h := booster_split_case.1 1 10000 1000 2000 3 (by norm_num) (by norm_num)
    (by norm_num)
  rw [h]
  norm_num [calculate_training_time, pyAdd, pySub, pyNeg]

/-- Counterexample to **C1** as stated: with booster strength 0 but
remaining hours 3 > 0 and coverable quantity 3000 < 10000, the scheduler
does not split and the remaining booster hours stay at 3, not 0. -/
theorem booster_split_zero_strength_cex :
    pyGt (.val 3) (.val 0) = true ∧
    (3 : ℚ) * (1000 : ℤ) < 10000 ∧
    stepBooster 0 10000 1000 1000 (.val 3) = ⟨.val 10, .val 10, .val 0, .val 3⟩ ∧
    (stepBooster 0 10000 1000 1000 (.val 3)).remAfter ≠ .val 0 := by
  refine ⟨by simp [pyGt], by norm_num, ?_, ?_⟩
  · have h := stepBooster_inactive 0 10000 1000 1000 (.val 3) (by simp)
    rw [h]
    norm_num [calculate_training_time]
  · have h := stepBooster_inactive 0 10000 1000 1000 (.val 3) (by simp)
    rw [h]
    simp

/-- **C2 (amended)** — With the booster branch active (strength > 0,
remaining hours > 0) and a positive quantity exactly equal to
`rem * boosted_rate`, the scheduler takes the full-coverage branch:
the actual duration is `duration(quantity, boosted_rate)` and the booster
remaining hours are exactly 0 afterwards (no zero-length split). -/
theorem exact_boundary_full_coverage (bonus spNeeded rBase rBoost : ℤ) (q : ℚ)
    (hb : 0 < bonus) (hq : 0 < q) (hsp : 0 < spNeeded)
    (heq : q * (rBoost : ℚ) = (spNeeded : ℚ)) :
    stepBooster bonus spNeeded rBase rBoost (.val q) =
      ⟨calculate_training_time (.val (spNeeded : ℚ)) rBase,
       calculate_training_time (.val (spNeeded : ℚ)) rBoost,
       pySub (calculate_training_time (.val (spNeeded : ℚ)) rBase)
         (calculate_training_time (.val (spNeeded : ℚ)) rBoost),
       .val 0⟩ := by
  have hsp' : (0 : ℚ) < (spNeeded : ℚ) := by exact_mod_cast hsp
  have hBo : (0 : ℚ) < (rBoost : ℚ) := by
    rcases lt_trichotomy ((rBoost : ℚ)) 0 with h | h | h
    · nlinarith
    · nlinarith
    · exact h
  have hBoZ : ¬ rBoost ≤ 0 := by
    push_neg
    exact_mod_cast hBo
  rw [stepBooster_full bonus spNeeded rBase rBoost q hb hq (le_of_eq heq.symm)]
  have hrem : pySub (.val q) (calculate_training_time (.val (spNeeded : ℚ)) rBoost) =
      PyFloat.val 0 := by
    simp only [calculate_training_time, if_neg hBoZ, pySub, pyNeg, pyAdd]
    rw [PyFloat.val.injEq]
    field_simp
    linarith [heq]
  rw [hrem]

/-- Witness for `exact_boundary_full_coverage`, the spec's Scenario C:
quantity 6000, boosted rate 2000/h, 3h of booster — coverable equals the
quantity exactly, the full-coverage branch runs in 3h and exits with zero
booster remaining. -/
theorem exact_boundary_scenario :
    stepBooster 1 6000 1000 2000 (.val 3) = ⟨.val 6, .val 3, .val 3, .val 0⟩ := by
  have h := exact_boundary_full_coverage 1 6000 1000 2000 3 (by norm_num) (by norm_num)
    (by norm_num) (by norm_num)
  rw [h]
  norm_num [calculate_training_time, pySub, pyAdd, pyNeg]

/-- Counterexample to **C2** as stated: with booster strength 0, remaining
hours 3 and coverable quantity `3 * 2000 = 6000` exactly equal to the
quantity, the booster branch is not entered at all and the remaining hours
stay 3, not 0. -/
theorem exact_boundary_zero_strength_cex :
    (3 : ℚ) * (2000 : ℤ) = 6000 ∧
    stepBooster 0 6000 2000 2000 (.val 3) = ⟨.val 3, .val 3, .val 0, .val 3⟩ ∧
    (stepBooster 0 6000 2000 2000 (.val 3)).remAfter ≠ .val 0 := by
  refine ⟨by norm_num, ?_, ?_⟩
  · have h := stepBooster_inactive 0 6000 2000 2000 (.val 3) (by simp)
    rw [h]
    norm_num [calculate_training_time]
  · have h := stepBooster_inactive 0 6000 2000 2000 (.val 3) (by simp)
    rw [h]
    simp

theorem rate_zb : calculate_sp_per_hour attrsZeroBoost skillL1 .omega = -90 := by
  simp [calculate_sp_per_hour, effectiveAttr, attrsZeroBoost, skillL1]

theorem rate_zb_boost :
    calculate_sp_per_hour (boostAttrs attrsZeroBoost 1) skillL1 .omega = 0 := by
  simp [calculate_sp_per_hour, effectiveAttr, boostAttrs, attrsZeroBoost, skillL1]

theorem rate_zero : calculate_sp_per_hour attrsZero skillL1 .omega = 0 := by
  simp [calculate_sp_per_hour, effectiveAttr, attrsZero, skillL1]

theorem rate_neg : calculate_sp_per_hour attrsNeg skillL0 .omega = -900 := by
  simp [calculate_sp_per_hour, effectiveAttr, attrsNeg, skillL0]

theorem rate_neg_boost :
    calculate_sp_per_hour (boostAttrs attrsNeg 1) skillL0 .omega = -810 := by
  simp [calculate_sp_per_hour, effectiveAttr, boostAttrs, attrsNeg, skillL0]

/-- **C3 (amended)** — Across a plan run starting from a nonnegative booster
duration, and provided the boosted rate of every item is positive, the
sequence of `booster_remaining` values observed after each item is finite,
never negative and non-increasing; in particular once it reaches 0 it never
becomes positive again. -/
theorem booster_depletion_invariant (attrs : Attributes) (skills : List (Skill × ℤ))
    (bonus : ℤ) (hours : ℚ) (clone : CloneState) (h0 : 0 ≤ hours)
    (hpos : ∀ p ∈ skills, 0 < calculate_sp_per_hour (boostAttrs attrs bonus) p.1 clone) :
    List.Chain' remDecreasing
      (PyFloat.val hours ::
        (validate_plan attrs skills bonus hours clone).entries.map PlanEntry.remAfter) ∧
    List.Chain' remZeroStays
      (PyFloat.val hours ::
        (validate_plan attrs skills bonus hours clone).entries.map PlanEntry.remAfter) := by
  have h1 : List.Chain' remDecreasing
      (PyFloat.val hours ::
        (validate_plan attrs skills bonus hours clone).entries.map PlanEntry.remAfter) := by
    unfold validate_plan
    exact planAux_rem_chain attrs (boostAttrs attrs bonus) bonus clone skills hours _ _
      h0 hpos
  refine ⟨h1, h1.imp ?_⟩
  rintro a b ⟨u, v, ha, hb, hv0, hvu⟩ hz
  rw [ha, PyFloat.val.injEq] at hz
  rw [hb]
  have : v = 0 := by
    rw [hz] at hvu
    linarith
  rw [this]

/-- Witness for `booster_depletion_invariant`: a concrete boosted run whose
trace `[24, 24]` is finite, nonnegative and non-increasing. -/
theorem booster_depletion_witness :
    (0 : ℚ) ≤ 24 ∧
    List.Chain' remDecreasing
      (PyFloat.val 24 ::
        (validate_plan attrsStd [(skillL1, 1)] 10 24 .omega).entries.map
          PlanEntry.remAfter) := by
  refine ⟨by norm_num, ?_⟩
  exact (booster_depletion_invariant attrsStd [(skillL1, 1)] 10 24 .omega (by norm_num)
    (by
      intro p hp
      rw [List.mem_singleton] at hp
      subst hp
      rw [rate_std_boost]
      norm_num)).1

/-- Counterexample to **C3** as stated: a degenerate plan item (zero boosted
rate, zero quantity) drives `booster_remaining` from 2 to `-inf`, which is
negative — the claim's unconditional "never negative" fails. -/
theorem booster_negative_remaining_cex :
    (validate_plan attrsZeroBoost [(skillL1, 1)] 1 2 .omega).entries.map
      PlanEntry.remAfter = [.ninf] ∧ pfNeg PyFloat.ninf := by
  constructor
  · simp only [validate_plan, planAux, rate_zb, rate_zb_boost, sp_skillL1]
    norm_num [stepBooster, calculate_training_time, pyGt, pyGe, pyMulInt, pySub,
      pyAdd, pyNeg]
  · exact Or.inl rfl

/-- **C4** — For every booster strength `s ≥ 0`, every skill and clone
state, the boosted production rate is at least the base production rate
(the caller's attributes carrying no booster bonus of their own), and
consequently no ledger entry of any plan simulation reports a negative
`time_saved`. -/
theorem boosted_rate_dominates_and_saved_nonneg :
    (∀ (a : Attributes) (sk : Skill) (c : CloneState) (bonus : ℤ),
      a.booster_bonus = 0 → 0 ≤ bonus →
      calculate_sp_per_hour a sk c ≤ calculate_sp_per_hour (boostAttrs a bonus) sk c) ∧
    (∀ (a : Attributes) (skills : List (Skill × ℤ)) (bonus : ℤ) (hours : ℚ)
        (c : CloneState), a.booster_bonus = 0 → 0 ≤ bonus →
      ∀ e ∈ (validate_plan a skills bonus hours c).entries, ¬ pfNeg e.timeSaved) := by
  constructor
  · intro a sk c bonus h0 hb
    exact rate_mono a bonus sk c h0 hb
  · intro a skills bonus hours c h0 hb e he
    simp only [validate_plan] at he
    exact planAux_saved_not_neg a (boostAttrs a bonus) bonus c
      (fun sk => rate_mono a bonus sk c h0 hb) skills _ _ _ e he

/-- Witness for `boosted_rate_dominates_and_saved_nonneg` at a concrete
boosted run: rate 1530 ≤ 2430 and the single entry's saved time is not
negative. -/
theorem saved_nonneg_witness :
    attrsStd.booster_bonus = 0 ∧ (0 : ℤ) ≤ 10 ∧
    calculate_sp_per_hour attrsStd skillL1 .omega ≤
      calculate_sp_per_hour (boostAttrs attrsStd 10) skillL1 .omega ∧
    PlanEntry.mk 0 (.val 0) (.val 0) (.val 0) (.val 24) ∈
      (validate_plan attrsStd [(skillL1, 1)] 10 24 .omega).entries ∧
    ¬ pfNeg (PlanEntry.mk 0 (.val 0) (.val 0) (.val 0) (.val 24)).timeSaved := by
  have hmem : PlanEntry.mk 0 (.val 0) (.val 0) (.val 0) (.val 24) ∈
      (validate_plan attrsStd [(skillL1, 1)] 10 24 .omega).entries := by
    rw [runB_entries]
    exact List.mem_singleton_self _
  exact ⟨rfl, by norm_num,
    boosted_rate_dominates_and_saved_nonneg.1 attrsStd skillL1 .omega 10 rfl
      (by norm_num),
    hmem,
    boosted_rate_dominates_and_saved_nonneg.2 attrsStd [(skillL1, 1)] 10 24 .omega rfl
      (by norm_num) _ hmem⟩

/-- **C5** — Evaluation at the failing input: degenerate attributes make both
the base rate (−900) and the boosted rate (−810) nonpositive for a
250-SP item under an active booster; the base and actual durations are the
infinite sentinel, but the entry's `time_saved` is NaN (`inf − inf`), not
the 0 the spec requires. -/
theorem double_degenerate_saved_is_nan :
    calculate_sp_per_hour attrsNeg skillL0 .omega = -900 ∧
    calculate_sp_per_hour (boostAttrs attrsNeg 1) skillL0 .omega = -810 ∧
    (validate_plan attrsNeg [(skillL0, 1)] 1 5 .omega).entries =
      [⟨250, .inf, .inf, .nan, .val 0⟩] ∧
    PyFloat.nan ≠ PyFloat.val 0 := by
  refine ⟨rate_neg, rate_neg_boost, ?_, by simp⟩
  simp only [validate_plan, planAux, rate_neg, rate_neg_boost, sp_skillL0]
  norm_num [stepBooster, calculate_training_time, pyGt, pyGe, pyMulInt, pySub,
    pyAdd, pyNeg]

/-- **C6 (amended)** — An item whose computed quantity is 0 (in particular
whenever the target level does not exceed the current level) produces a
zero base and actual duration, zero saved time, and leaves
`booster_remaining` unchanged — provided the base rate is positive and,
when a booster could be active, the boosted rate is positive too. -/
theorem zero_quantity_zero_cost (sk : Skill) (tgt : ℤ) (bonus rBase rBoost : ℤ)
    (rem : PyFloat) (hle : tgt ≤ sk.current_level) (hB : 0 < rBase)
    (hBo : 0 < rBoost) :
    sp_to_train sk tgt = 0 ∧
    stepBooster bonus 0 rBase rBoost rem = ⟨.val 0, .val 0, .val 0, rem⟩ := by
  have hBZ : ¬ rBase ≤ 0 := not_le.mpr hB
  have hBoZ : ¬ rBoost ≤ 0 := not_le.mpr hBo
  constructor
  · simp [sp_to_train, hle]
  · by_cases hact : 0 < bonus ∧ pyGt rem (.val 0) = true
    · cases rem with
      | val q =>
          have hq : 0 < q := by
            have := hact.2
            simpa [pyGt] using this
          have h := stepBooster_full bonus 0 rBase rBoost q hact.1 hq
            (by
              simp only [Int.cast_zero]
              exact mul_nonneg hq.le (by exact_mod_cast hBo.le))
          rw [h]
          simp [calculate_training_time, hBZ, hBoZ, pySub, pyAdd, pyNeg]
      | inf =>
          unfold stepBooster
          rw [if_pos hact]
          have hmul : pyMulInt PyFloat.inf rBoost = .inf := by
            simp [pyMulInt, hBo]
          rw [hmul]
          rw [show pyGe PyFloat.inf (.val ((0 : ℤ) : ℚ)) = true from rfl]
          simp [calculate_training_time, hBZ, hBoZ, pySub, pyAdd, pyNeg]
      | ninf => simp [pyGt] at hact
      | nan => simp [pyGt] at hact
    · rw [stepBooster_inactive bonus 0 rBase rBoost rem hact]
      simp [calculate_training_time, hBZ]

/-- Witness for `zero_quantity_zero_cost`: a level-1 skill re-targeted at
level 1 under a 7-hour booster with positive rates costs nothing and leaves
the booster at 7 hours. -/
theorem zero_quantity_witness :
    (1 : ℤ) ≤ skillL1.current_level ∧ (0 : ℤ) < 100 ∧ (0 : ℤ) < 200 ∧
    sp_to_train skillL1 1 = 0 ∧
    stepBooster 5 0 100 200 (.val 7) = ⟨.val 0, .val 0, .val 0, .val 7⟩ := by
  have h := zero_quantity_zero_cost skillL1 1 5 100 200 (.val 7)
    (by simp [skillL1]) (by norm_num) (by norm_num)
  exact ⟨by simp [skillL1], by norm_num, by norm_num, h.1, h.2⟩

/-- Counterexample to **C6** as stated: with all-zero attributes the base
rate is 0, and the zero-quantity entry's base and actual durations are the
infinite sentinel rather than zero. -/
theorem zero_quantity_infinite_base_cex :
    sp_to_train skillL1 1 = 0 ∧
    (validate_plan attrsZero [(skillL1, 1)] 0 0 .omega).entries =
      [⟨0, .inf, .inf, .val 0, .val 0⟩] ∧
    PyFloat.inf ≠ PyFloat.val 0 := by
  refine ⟨sp_skillL1, ?_, by simp⟩
  simp only [validate_plan, planAux, rate_zero, sp_skillL1]
  norm_num [stepBooster, calculate_training_time, pyGt, pyGe, pyMulInt, pySub,
    pyAdd, pyNeg]

theorem rate_ten : calculate_sp_per_hour attrsTen skillL0 .omega = 900 := by
  simp [calculate_sp_per_hour, effectiveAttr, attrsTen, skillL0]

theorem rate_ten_boost :
    calculate_sp_per_hour (boostAttrs attrsTen 10) skillL0 .omega = 1800 := by
  simp [calculate_sp_per_hour, effectiveAttr, boostAttrs, attrsTen, skillL0]

theorem pyDivPF_val_some (a : PyFloat) (q : ℚ) (hq : q ≠ 0) :
    ∃ t, pyDivPF a (.val q) = some t := by
  cases a <;> simp [pyDivPF, hq]

/-- **C7 (amended)** — The plan scheduler's reported total time saved is the
sum of base durations minus the sum of actual durations over all entries
(the full per-entry sums).  The export validator's summary, by contrast,
totals only the strictly positive per-entry saved values, and its
percentage line is omitted whenever the baseline total is not positive —
in particular when it is 0. -/
theorem aggregate_saved_totals :
    (∀ (attrs : Attributes) (skills : List (Skill × ℤ)) (bonus : ℤ) (hours : ℚ)
        (clone : CloneState),
      (validate_plan attrs skills bonus hours clone).totalSaved =
        pySub
          ((validate_plan attrs skills bonus hours clone).entries.foldl
            (fun a e => pyAdd a e.timeBase) (.val 0))
          ((validate_plan attrs skills bonus hours clone).entries.foldl
            (fun a e => pyAdd a e.timeActual) (.val 0))) ∧
    (∀ entries : List SkillEntry, (exportTotals entries).2.1 = 0 →
      exportPercentSaved entries = none) := by
  constructor
  · intro attrs skills bonus hours clone
    have h := planAux_totals attrs (boostAttrs attrs bonus) bonus clone skills
      (.val hours) (.val 0) (.val 0)
    simp only [validate_plan]
    rw [h.1, h.2]
  · intro entries h
    simp [exportPercentSaved, h]

/-- Witness for `aggregate_saved_totals`: the totals identity on a concrete
run, and the percentage omission on an empty export (baseline total 0). -/
theorem aggregate_saved_witness :
    (validate_plan attrsStd [(skillL1, 1)] 0 24 .omega).totalSaved =
      pySub
        ((validate_plan attrsStd [(skillL1, 1)] 0 24 .omega).entries.foldl
          (fun a e => pyAdd a e.timeBase) (.val 0))
        ((validate_plan attrsStd [(skillL1, 1)] 0 24 .omega).entries.foldl
          (fun a e => pyAdd a e.timeActual) (.val 0)) ∧
    (exportTotals []).2.1 = 0 ∧ exportPercentSaved [] = none := by
  refine ⟨aggregate_saved_totals.1 attrsStd [(skillL1, 1)] 0 24 .omega, ?_, ?_⟩
  · simp [exportTotals]
  · exact aggregate_saved_totals.2 [] (by simp [exportTotals])

/-- Counterexample to **C7** as stated: an export whose single entry records
a negative saved time.  The reported aggregate saved total is 0 (only
positive values are summed), while the per-entry sums give
`Σ old − Σ new = −1`. -/
theorem export_positive_only_sum_cex :
    (exportTotals [entryNegSaved]).2.2 = 0 ∧
    (exportTotals [entryNegSaved]).2.1 - (exportTotals [entryNegSaved]).1 = -1 ∧
    (0 : ℚ) ≠ -1 := by
  refine ⟨?_, ?_, by norm_num⟩
  · simp [exportTotals, entryNegSaved]
  · simp [exportTotals, entryNegSaved]
    norm_num

/-- **C8 (amended)** — With strictly positive booster strength and duration,
a positive base rate and a positive quantity, single-skill validation
reports the same quantity, base duration and actual training time as the
plan scheduler run on the one-element plan.  (Its reported "time saved" is
computed for the full duration, `base − duration(quantity, boosted_rate)`,
which differs from the plan entry's saved time in the split case.) -/
theorem single_mode_matches_plan (attrs : Attributes) (sk : Skill) (tgt bonus : ℤ)
    (hours : ℚ) (clone : CloneState) (hb : 0 < bonus) (hh : 0 < hours)
    (hrB : 0 < calculate_sp_per_hour attrs sk clone)
    (hsp : 0 < sp_to_train sk tgt) :
    (validate_single_skill attrs sk tgt bonus hours clone).map
        (fun o => (o.spNeeded, o.timeBase, o.timeActual)) =
      ((validate_plan attrs [(sk, tgt)] bonus hours clone).entries.map
        (fun e => (e.spNeeded, e.timeBase, e.timeActual))).head? := by
  have hrB' : (0 : ℚ) < ((calculate_sp_per_hour attrs sk clone : ℤ) : ℚ) := by
    exact_mod_cast hrB
  have hsp' : (0 : ℚ) < ((sp_to_train sk tgt : ℤ) : ℚ) := by exact_mod_cast hsp
  have hBZ : ¬ calculate_sp_per_hour attrs sk clone ≤ 0 := not_le.mpr hrB
  have htb : calculate_training_time (.val ((sp_to_train sk tgt : ℤ) : ℚ))
      (calculate_sp_per_hour attrs sk clone) =
      .val (((sp_to_train sk tgt : ℤ) : ℚ) /
        ((calculate_sp_per_hour attrs sk clone : ℤ) : ℚ)) := by
    simp [calculate_training_time, hBZ]
  have htbne : ((sp_to_train sk tgt : ℤ) : ℚ) /
      ((calculate_sp_per_hour attrs sk clone : ℤ) : ℚ) ≠ 0 :=
    div_ne_zero (ne_of_gt hsp') (ne_of_gt hrB')
  obtain ⟨t, ht⟩ := pyDivPF_val_some
    (pySub (.val (((sp_to_train sk tgt : ℤ) : ℚ) /
        ((calculate_sp_per_hour attrs sk clone : ℤ) : ℚ)))
      (calculate_training_time (.val ((sp_to_train sk tgt : ℤ) : ℚ))
        (calculate_sp_per_hour (boostAttrs attrs bonus) sk clone)))
    (((sp_to_train sk tgt : ℤ) : ℚ) /
      ((calculate_sp_per_hour attrs sk clone : ℤ) : ℚ)) htbne
  by_cases hsplit :
      hours * ((calculate_sp_per_hour (boostAttrs attrs bonus) sk clone : ℤ) : ℚ) <
        ((sp_to_train sk tgt : ℤ) : ℚ)
  · -- the booster expires mid-item: both modes split identically
    have hplan := stepBooster_split bonus (sp_to_train sk tgt)
      (calculate_sp_per_hour attrs sk clone)
      (calculate_sp_per_hour (boostAttrs attrs bonus) sk clone) hours hb hh hsplit
    simp only [validate_single_skill, if_pos hb, if_pos (And.intro hh hsplit),
      validate_plan, planAux, hplan, htb]
    have hdiv : pyDivPF
        (.val (((sp_to_train sk tgt : ℤ) : ℚ) -
          hours * ((calculate_sp_per_hour (boostAttrs attrs bonus) sk clone : ℤ) : ℚ)))
        (.val ((calculate_sp_per_hour attrs sk clone : ℤ) : ℚ)) =
        some (.val ((((sp_to_train sk tgt : ℤ) : ℚ) -
          hours * ((calculate_sp_per_hour (boostAttrs attrs bonus) sk clone : ℤ) : ℚ)) /
          ((calculate_sp_per_hour attrs sk clone : ℤ) : ℚ))) := by
      simp [pyDivPF, ne_of_gt hrB']
    rw [hdiv, htb] at *
    rw [ht]
    simp [calculate_training_time, hBZ, pyAdd, List.head?]
  · -- full coverage in both modes
    push_neg at hsplit
    have hplan := stepBooster_full bonus (sp_to_train sk tgt)
      (calculate_sp_per_hour attrs sk clone)
      (calculate_sp_per_hour (boostAttrs attrs bonus) sk clone) hours hb hh hsplit
    have hcond : ¬(0 < hours ∧
        hours * ((calculate_sp_per_hour (boostAttrs attrs bonus) sk clone : ℤ) : ℚ) <
          ((sp_to_train sk tgt : ℤ) : ℚ)) := by
      rintro ⟨-, hlt⟩
      exact absurd hlt (not_lt.mpr hsplit)
    simp only [validate_single_skill, if_pos hb, if_neg hcond,
      validate_plan, planAux, hplan, htb]
    rw [ht]
    simp [List.head?]

/-- Witness for `single_mode_matches_plan`: a concrete full-coverage run
(base rate 900, quantity 250, 1h booster at strength 10) where all four
hypotheses hold. -/
theorem single_mode_witness :
    (0 : ℤ) < 10 ∧ (0 : ℚ) < 1 ∧ 0 < calculate_sp_per_hour attrsTen skillL0 .omega ∧
    0 < sp_to_train skillL0 1 ∧
    (validate_single_skill attrsTen skillL0 1 10 1 .omega).map
        (fun o => (o.spNeeded, o.timeBase, o.timeActual)) =
      ((validate_plan attrsTen [(skillL0, 1)] 10 1 .omega).entries.map
        (fun e => (e.spNeeded, e.timeBase, e.timeActual))).head? := by
  refine ⟨by norm_num, by norm_num, ?_, ?_, ?_⟩
  · rw [rate_ten]; norm_num
  · rw [sp_skillL0]; norm_num
  · exact single_mode_matches_plan attrsTen skillL0 1 10 1 .omega (by norm_num)
      (by norm_num) (by rw [rate_ten]; norm_num) (by rw [sp_skillL0]; norm_num)

/-- Counterexample to **C8** as stated: on a split-case input
(quantity 250, base rate 900, boosted rate 1800, 0.1h of booster), the
single-skill mode reports `5/36` hours saved (full-duration saving) while
the plan scheduler's entry reports `1/10` hours saved. -/
theorem single_mode_saved_differs_cex :
    (validate_single_skill attrsTen skillL0 1 10 (1/10) .omega).map
        (fun o => o.timeSaved) = some (some (.val (5/36))) ∧
    (validate_plan attrsTen [(skillL0, 1)] 10 (1/10) .omega).entries.map
        PlanEntry.timeSaved = [.val (1/10)] ∧
    some (PyFloat.val (5/36)) ≠ some (PyFloat.val (1/10)) := by
  refine ⟨?_, ?_, by simp; norm_num⟩
  · simp only [validate_single_skill, rate_ten, rate_ten_boost, sp_skillL0]
    norm_num [pyDivPF, calculate_training_time, pySub, pyAdd, pyNeg]
  · simp only [validate_plan, planAux, rate_ten, rate_ten_boost, sp_skillL0]
    norm_num [stepBooster, calculate_training_time, pyGt, pyGe, pyMulInt, pySub,
      pyAdd, pyNeg]

end EveMon
